import Mathlib

/-!
Verification of the retrieval and knowledge-store subsystem of the
knowledge-quiz-bot repository (src/knowledge_manager.py,
src/retrievers/vector_retriever.py, src/services/metadata_manager.py),
as a shallow embedding in Lean 4.

External collaborators (the Chroma vector index's ranking, the text
splitter, the document loaders, the md5 digest) are modelled as explicit
function parameters; everything the Python code itself does (dedup
partitioning, metadata tagging, state mutation, exception handling) is
translated directly from the source.
-/

namespace KQB

/-- Metadata dictionary attached to a chunk (langchain Document.metadata).
Each field models the presence/absence of the corresponding key. -/
structure Meta where
  source_file : Option String := none
  file_hash : Option String := none
  original_filename : Option String := none
  source : Option String := none
  file_type : Option String := none
  chunk_index : Option Nat := none
  file_size : Option Nat := none
deriving DecidableEq, Repr

/-- A langchain Document: page content plus metadata. -/
structure Chunk where
  page_content : String
  metadata : Meta
deriving DecidableEq, Repr

/-- Per-file record stored in KnowledgeManager.processed_files (the value
of the dict keyed by the md5 content hash). The processed_date timestamp
is omitted (wall-clock). -/
structure FileMeta where
  filename : String
  file_size : Nat
  chunk_count : Nat
  file_type : String
deriving DecidableEq, Repr

/-- Python dict assignment d[h] = m: overwrite in place if the key is
present, else append (dicts preserve insertion order). -/
def dictSet (d : List (String × FileMeta)) (h : String) (m : FileMeta) :
    List (String × FileMeta) :=
  if d.any (fun p => p.1 == h) then
    d.map (fun p => if p.1 == h then (h, m) else p)
  else d ++ [(h, m)]

/-- KnowledgeManager.processed_files is a dict everywhere except after
clear_knowledge_base, which assigns a set. Both runtime types are modelled
so the dynamic type error is representable. -/
inductive PFiles where
  | dict (entries : List (String × FileMeta))
  | pset (elems : List String)
deriving DecidableEq, Repr

/-- Python membership test h in processed_files (works on dict keys and on
sets alike). -/
def PFiles.member : PFiles → String → Bool
  | .dict d, h => d.any (fun p => p.1 == h)
  | .pset s, h => s.contains h

/-- Python item assignment processed_files[h] = m. On a dict it succeeds;
on a set it raises TypeError. -/
def PFiles.setItem : PFiles → String → FileMeta → Except String PFiles
  | .dict d, h, m => .ok (.dict (dictSet d h m))
  | .pset _, _, _ => .error "TypeError: set object does not support item assignment"

/-- Python subscript read processed_files[h]; raises TypeError on a set. -/
def PFiles.getItem : PFiles → String → Except String (Option FileMeta)
  | .dict d, h => .ok ((d.find? (fun p => p.1 == h)).map Prod.snd)
  | .pset _, _ => .error "TypeError: set object is not subscriptable"

/-- Python del processed_files[h]; raises TypeError on a set. -/
def PFiles.delItem : PFiles → String → Except String PFiles
  | .dict d, h => .ok (.dict (d.filter (fun p => p.1 != h)))
  | .pset _, _ => .error "TypeError: set object does not support item deletion"

/-- len(processed_files). -/
def PFiles.size : PFiles → Nat
  | .dict d => d.length
  | .pset s => s.length

/-- An uploaded file handed to process_documents: name plus raw bytes. -/
structure UploadedFile where
  name : String
  buffer : List Nat
deriving DecidableEq, Repr

/-- In-memory state of a KnowledgeManager instance. The vectorstore is
modelled by the multiset (list) of chunks currently indexed in Chroma;
None models self.vectorstore is None. embeddings : Bool models whether
self.embeddings initialized successfully. -/
structure KMState where
  documents : List Chunk
  vectorstore : Option (List Chunk)
  processed_files : PFiles
  embeddings : Bool
  is_preloaded : Bool
deriving DecidableEq, Repr

/-- Result dict returned by KnowledgeManager.process_documents. Fields set
to none model keys absent from the returned dict on that path. -/
structure PDResult where
  success : Bool
  new_files : Option Nat
  skipped_files : Option Nat
  skipped_list : Option (List String)
  total_chunks : Option Nat
  error : Option String
deriving DecidableEq, Repr

/-- First loop of process_documents (lines 140-150): partition the batch
into new files (paired with their hash) and skipped names. Membership is
checked against the processed_files table as it stood before the call —
no hash is recorded during this loop. -/
def partitionFiles (hash : List Nat → String) (pf : PFiles) :
    List UploadedFile → List (UploadedFile × String) × List String
  | [] => ([], [])
  | f :: rest =>
    let h := hash f.buffer
    let (n, s) := partitionFiles hash pf rest
    if pf.member h then (n, f.name :: s) else ((f, h) :: n, s)

/-- Python "name.split(.)[-1]": the extension of a filename. -/
def fileExtension (name : String) : String :=
  match (name.splitOn ".").reverse with
  | [] => ""
  | e :: _ => e

/-- Metadata tagging of one new file's chunks (lines 180-189). chunk_index
uses texts.index(text), i.e. the position of the first chunk with equal
content, offset by len(all_texts) before this file. -/
def tagChunks (allLen : Nat) (f : UploadedFile) (h : String)
    (texts : List String) : List Chunk :=
  texts.map fun c =>
    { page_content := c
      metadata :=
        { source_file := some f.name
          file_hash := some h
          chunk_index := some (allLen + texts.indexOf c)
          file_size := some f.buffer.length } }

/-- Second loop of process_documents (lines 165-208), threading all_texts,
the (mutated-in-place) processed_files table and the processed count.
chunksOf models _load_document followed by text_splitter.split_documents:
the list of chunk contents produced for a file ([] when loading failed,
since _load_document catches its own errors and returns []). An exception
from the set-typed metadata assignment carries the table as mutated so
far, since self.processed_files mutations before the raise persist. -/
def processLoop (chunksOf : String → List Nat → List String) :
    List (UploadedFile × String) → List Chunk → PFiles → Nat →
    Except (PFiles × String) (List Chunk × PFiles × Nat)
  | [], allTexts, pf, cnt => .ok (allTexts, pf, cnt)
  | (f, h) :: rest, allTexts, pf, cnt =>
    let texts := chunksOf f.name f.buffer
    if texts.isEmpty then processLoop chunksOf rest allTexts pf cnt
    else
      let tagged := tagChunks allTexts.length f h texts
      match pf.setItem h
          { filename := f.name
            file_size := f.buffer.length
            chunk_count := texts.length
            file_type := (fileExtension f.name).toLower } with
      | .error e => .error (pf, e)
      | .ok pf' => processLoop chunksOf rest (allTexts ++ tagged) pf' (cnt + 1)

/-- KnowledgeManager.process_documents (lines 134-256). The outer
try/except converts any internal exception into a success=False result,
so the function is total; state mutations performed before the exception
(processed_files entries of earlier files) persist. -/
def process_documents (hash : List Nat → String)
    (chunksOf : String → List Nat → List String)
    (st : KMState) (files : List UploadedFile) : KMState × PDResult :=
  let (newFiles, skipped) := partitionFiles hash st.processed_files files
  if newFiles.isEmpty then
    (st, { success := true, new_files := some 0,
           skipped_files := some skipped.length, skipped_list := some skipped,
           total_chunks := none, error := none })
  else
    match processLoop chunksOf newFiles [] st.processed_files 0 with
    | .error (pf', e) =>
      ({ st with processed_files := pf' },
       { success := false, new_files := none, skipped_files := none,
         skipped_list := none, total_chunks := none, error := some e })
    | .ok (allTexts, pf', cnt) =>
      if allTexts.isEmpty then
        ({ st with processed_files := pf' },
         { success := false, new_files := some 0,
           skipped_files := some skipped.length, skipped_list := some skipped,
           total_chunks := none, error := none })
      else
        let vs' := match st.vectorstore with
          | none => allTexts
          | some idx => idx ++ allTexts
        ({ st with vectorstore := some vs',
                   documents := st.documents ++ allTexts,
                   processed_files := pf' },
         { success := true, new_files := some cnt,
           skipped_files := some skipped.length, skipped_list := some skipped,
           total_chunks := some allTexts.length, error := none })

/-- The Chroma similarity backend: given a query and the candidate chunks
(after metadata filtering), it either raises or returns scored chunks in
backend-defined order. The embedding model lives behind this function. -/
def Backend := String → List Chunk → Except String (List (Chunk × Int))

/-- A backend honouring the Chroma contract: every returned chunk comes
from the candidate list it was given. -/
def Backend.sound (b : Backend) : Prop :=
  ∀ q l res, b q l = .ok res → ∀ p ∈ res, p.1 ∈ l

/-- Whether a chunk's metadata matches a Chroma where-filter of the form
\x7b"file_hash": \x7b"$in": hashes\x7d\x7d; no filter matches everything.
A chunk without the file_hash key does not match an $in filter. -/
def matchesFilter (filt : Option (List String)) (c : Chunk) : Bool :=
  match filt with
  | none => true
  | some hashes =>
    match c.metadata.file_hash with
    | none => false
    | some h => hashes.contains h

/-- Chroma similarity_search_with_score(query, k=k, filter=filt): the
backend ranks the chunks passing the metadata filter and the first k are
returned. -/
def chromaSearch (backend : Backend) (index : List Chunk) (query : String)
    (k : Nat) (filt : Option (List String)) :
    Except String (List (Chunk × Int)) :=
  (backend query (index.filter (matchesFilter filt))).map (fun res => res.take k)

/-- One formatted search result dict \x7bcontent, metadata, relevance_score\x7d. -/
structure FormattedResult where
  content : String
  metadata : Meta
  relevance_score : Int
deriving DecidableEq, Repr

/-- State of a VectorStoreRetriever: the vector store handle and the
in-memory documents list it was constructed with. -/
structure Retriever where
  vector_store : Option (List Chunk)
  documents : List Chunk
deriving Repr

namespace VectorStoreRetriever

/-- VectorStoreRetriever.similarity_search (vector_retriever.py lines
13-38). Builds a file_hash $in filter from selected_documents unless it is
None/empty or contains the sentinel "all"; a backend exception is caught
and yields []. -/
def similarity_search (backend : Backend) (r : Retriever) (query : String)
    (k : Nat) (selected_documents : Option (List String)) :
    List FormattedResult :=
  match r.vector_store with
  | none => []
  | some index =>
    let filt : Option (List String) :=
      match selected_documents with
      | none => none
      | some sel =>
        if sel.isEmpty then none
        else if sel.contains "all" then none
        else some sel
    match chromaSearch backend index query k filt with
    | .error _ => []
    | .ok res =>
      res.map fun p =>
        { content := p.1.page_content, metadata := p.1.metadata,
          relevance_score := p.2 }

/-- Python truthiness chain a or b: the first value that is present and
non-empty wins (an empty string is falsy). -/
def orTruthy (a b : Option String) : Option String :=
  match a with
  | some s => if s.isEmpty then b else some s
  | none => b

/-- The file identifier used by get_random_context's selected_documents
filter: file_hash or source_file or original_filename or "Unknown". -/
def fileIdOf (m : Meta) : String :=
  ((orTruthy m.file_hash (orTruthy m.source_file m.original_filename)).getD "Unknown")

/-- VectorStoreRetriever.get_random_context (lines 40-62). randIdx models
random.choice: the chunk picked is suitable[randIdx % len(suitable)]. -/
def get_random_context (randIdx : Nat) (r : Retriever) (min_length : Nat)
    (selected_documents : Option (List String)) : Option String :=
  let docs :=
    match selected_documents with
    | none => r.documents
    | some sel =>
      if sel.isEmpty then r.documents
      else if sel.contains "all" then r.documents
      else r.documents.filter fun d => sel.contains (fileIdOf d.metadata)
  if docs.isEmpty then none
  else
    let suitable := docs.filter fun d => min_length ≤ d.page_content.length
    let suitable := if suitable.isEmpty then docs else suitable
    (suitable.get? (randIdx % suitable.length)).map (fun d => d.page_content)

/-- VectorStoreRetriever.get_all_chunks (lines 78-100): Chroma get(where)
returns every indexed chunk matching the filter, as (content, metadata)
pairs. -/
def get_all_chunks (r : Retriever) (selected_documents : Option (List String)) :
    List (String × Meta) :=
  match r.vector_store with
  | none => []
  | some index =>
    let whereF : Option (List String) :=
      match selected_documents with
      | none => none
      | some sel =>
        if sel.isEmpty then none
        else if sel.contains "all" then none
        else some sel
    (index.filter (matchesFilter whereF)).map fun c => (c.page_content, c.metadata)

end VectorStoreRetriever

/-- KnowledgeManager.search_knowledge_base (lines 321-341): unfiltered
similarity search over the vector store; exceptions yield []. -/
def search_knowledge_base (backend : Backend) (st : KMState) (query : String)
    (k : Nat) : List FormattedResult :=
  match st.vectorstore with
  | none => []
  | some index =>
    match chromaSearch backend index query k none with
    | .error _ => []
    | .ok res =>
      res.map fun p =>
        { content := p.1.page_content, metadata := p.1.metadata,
          relevance_score := p.2 }

/-- KnowledgeManager.get_random_context (lines 343-358): over the
in-memory documents, no source filter. -/
def get_random_context (randIdx : Nat) (st : KMState) (min_length : Nat) :
    Option String :=
  if st.documents.isEmpty then none
  else
    let suitable := st.documents.filter fun d => min_length ≤ d.page_content.length
    let suitable := if suitable.isEmpty then st.documents else suitable
    (suitable.get? (randIdx % suitable.length)).map (fun d => d.page_content)

/-- The source-file key get_stats and get_sources derive from a chunk:
the first present among source_file, original_filename, source. -/
def sourceKeyOf (m : Meta) : Option String :=
  match m.source_file with
  | some s => some s
  | none =>
    match m.original_filename with
    | some o => some o
    | none => m.source

/-- The stats dict returned by KnowledgeManager.get_stats. -/
structure Stats where
  doc_count : Nat
  chunk_count : Nat
  total_chars : Nat
  avg_chunk_size : Nat
  topic_count : Nat
deriving DecidableEq, Repr

/-- KnowledgeManager.get_stats (lines 383-420). doc_count counts distinct
source files among the in-memory documents; chunk_count is their number. -/
def get_stats (st : KMState) : Stats :=
  if st.documents.isEmpty then
    { doc_count := 0, chunk_count := 0, total_chars := 0,
      avg_chunk_size := 0, topic_count := 0 }
  else
    let total_chars := (st.documents.map (fun d => d.page_content.length)).sum
    let sources := (st.documents.filterMap (fun d => sourceKeyOf d.metadata)).dedup
    let topic := max (min (sources.length * 3) (st.documents.length / 2)) 1
    { doc_count := sources.length
      chunk_count := st.documents.length
      total_chars := total_chars
      avg_chunk_size := total_chars / st.documents.length
      topic_count := topic }

/-- KnowledgeManager.clear_knowledge_base (lines 422-431): resets the
documents and vector store, but assigns a set() to processed_files. -/
def clear_knowledge_base (st : KMState) : KMState :=
  { st with documents := [], vectorstore := none, processed_files := .pset [] }

/-- KnowledgeManager.remove_processed_file (lines 477-500): drops the
metadata record and filters the in-memory documents by file_hash; the
vector store is untouched. Internal exceptions are caught and yield
False with no state change committed past the raise point. -/
def remove_processed_file (st : KMState) (file_hash : String) :
    KMState × Bool :=
  if ¬ st.processed_files.member file_hash then (st, false)
  else
    match st.processed_files.getItem file_hash with
    | .error _ => (st, false)
    | .ok _ =>
      match st.processed_files.delItem file_hash with
      | .error _ => (st, false)
      | .ok pf' =>
        ({ st with processed_files := pf',
                   documents := st.documents.filter
                     (fun d => d.metadata.file_hash != some file_hash) },
         true)

/-- KnowledgeManager.rebuild_vectorstore (lines 502-526): fails closed
(returns False, leaves the existing vector store) when there are no
documents or no embeddings; otherwise recreates the index from exactly
the current in-memory documents. -/
def rebuild_vectorstore (st : KMState) : KMState × Bool :=
  if st.documents.isEmpty ∨ ¬ st.embeddings then (st, false)
  else ({ st with vectorstore := some st.documents }, true)

/-- The chunks process_text_content builds from raw text: the splitter's
chunk contents, each tagged only with source = source_name. -/
def textChunks (split : String → List String) (text source_name : String) :
    List Chunk :=
  (split text).map fun c =>
    { page_content := c, metadata := { source := some source_name } }

/-- KnowledgeManager.process_text_content (lines 258-287). split models
the text splitter; embed models Chroma.from_documents together with the
embedding backend, which either raises or builds an index holding exactly
the given chunks. The except branch logs and re-raises, so a backend
exception propagates to the caller (.error). On success the documents
list and the vector store are replaced wholesale. -/
def process_text_content (split : String → List String)
    (embed : List Chunk → Except String Unit) (st : KMState)
    (text source_name : String) : Except String (KMState × Bool) :=
  let texts := textChunks split text source_name
  match embed texts with
  | .error e => .error e
  | .ok _ =>
    .ok ({ st with documents := texts, vectorstore := some texts,
                   embeddings := true }, true)

/-- Construction of a KnowledgeManager (lines 18-37 plus
_preload_existing_documents, lines 77-122). embedOk: whether embedding
initialisation succeeded; diskMeta: the processed-files table read from
the metadata file (None when absent/corrupt); persisted: the chunk
contents of a persisted Chroma directory (None when the directory does
not exist). When a non-empty index is preloaded, is_preloaded is set and
_reconstruct_documents_from_metadata resets documents to []. -/
def kmInit (embedOk : Bool) (diskMeta : Option (List (String × FileMeta)))
    (persisted : Option (List Chunk)) : KMState :=
  let st : KMState :=
    { documents := [], vectorstore := none,
      processed_files := .dict (diskMeta.getD []), embeddings := embedOk,
      is_preloaded := false }
  match persisted, embedOk with
  | some idx, true =>
    if idx.isEmpty then { st with vectorstore := some idx }
    else { st with vectorstore := some idx, is_preloaded := true,
                   documents := [] }
  | _, _ => st

/-- File-system events a save can emit, for the atomicity analysis of
MetadataManager.save_metadata. -/
inductive FsEvent where
  | openTrunc (path : String)
  | write (path : String) (data : String)
  | renameInto (src dst : String)
deriving DecidableEq, Repr

/-- A file system as an association list path ↦ content. -/
def Fs := List (String × String)

/-- Content of a path. -/
def Fs.read (fs : Fs) (p : String) : Option String :=
  (List.find? (fun e => e.1 == p) fs).map Prod.snd

/-- Overwrite or create a path. -/
def Fs.set (fs : Fs) (p c : String) : Fs :=
  (p, c) :: List.filter (fun e => e.1 != p) fs

/-- Apply one event to the file system. -/
def applyEvent (fs : Fs) : FsEvent → Fs
  | .openTrunc p => Fs.set fs p ""
  | .write p d => Fs.set fs p (((Fs.read fs p).getD "") ++ d)
  | .renameInto s d =>
    match Fs.read fs s with
    | none => fs
    | some c => Fs.set (List.filter (fun e => e.1 != s) fs) d c

/-- Replay a prefix of events. -/
def replay (fs : Fs) (evs : List FsEvent) : Fs :=
  evs.foldl applyEvent fs

/-- The event trace of MetadataManager.save_metadata (metadata_manager.py
lines 23-30): open(metadata_file, "w") truncates the target in place,
then json.dump writes the serialized table into it. No temporary file and
no rename are involved. -/
def save_metadata_events (metadata_file serialized : String) : List FsEvent :=
  [.openTrunc metadata_file, .write metadata_file serialized]

/-- A trace writes the target atomically in the write-new-then-replace
sense: the target path is only ever touched by a rename, never opened for
truncation or written directly. -/
def tempThenRename (target : String) (evs : List FsEvent) : Bool :=
  evs.all fun e =>
    match e with
    | .openTrunc p => p != target
    | .write p _ => p != target
    | .renameInto _ _ => true

/-- Every intermediate state an observer of the target path can see while
the trace runs: the target's content after each proper prefix. -/
def observableContents (fs : Fs) (target : String) (evs : List FsEvent) :
    List (Option String) :=
  (List.range (evs.length + 1)).map fun n => Fs.read (replay fs (evs.take n)) target

/-! Concrete sample data used by witnesses and counterexamples. -/

/-- A deterministic stand-in for the md5 hexdigest: any function of the
raw bytes is admissible, since the code only relies on equal bytes giving
equal digests. -/
def sampleHash : List Nat → String := fun b => "md5:" ++ toString b

/-- A loader/splitter stand-in: every file yields one chunk whose content
names the file's byte count. -/
def sampleChunks : String → List Nat → List String :=
  fun _ b => ["chunk of " ++ toString b.length]

/-- A fresh KnowledgeManager state: nothing ingested, embeddings ready. -/
def emptyKM : KMState :=
  { documents := [], vectorstore := none, processed_files := .dict [],
    embeddings := true, is_preloaded := false }

/-- Upload a.txt with bytes [1, 2, 3]. -/
def fileA : UploadedFile := { name := "a.txt", buffer := [1, 2, 3] }

/-- Upload b.txt with the same bytes [1, 2, 3]. -/
def fileB : UploadedFile := { name := "b.txt", buffer := [1, 2, 3] }

/-- A backend that returns every candidate chunk with score 0, in order. -/
def idBackend : Backend := fun _ l => .ok (l.map (fun c => (c, (0 : Int))))

/-- The identity backend satisfies the Chroma contract. -/
theorem idBackend_sound : Backend.sound idBackend := by
  intro q l res h p hp
  simp only [idBackend, Except.ok.injEq] at h
  subst h
  rcases List.mem_map.1 hp with ⟨c, hc, rfl⟩
  exact hc

/-! Helper lemmas about the processed-files dict. -/

/-- After d[h] = m, the key h is present. -/
theorem dictSet_member (d : List (String × FileMeta)) (h : String) (m : FileMeta) :
    (dictSet d h m).any (fun p => p.1 == h) = true := by
  unfold dictSet
  by_cases hc : d.any (fun p => p.1 == h) = true
  · rw [if_pos hc]
    rcases List.any_eq_true.1 hc with ⟨p, hp, hph⟩
    refine List.any_eq_true.2 ⟨(h, m), List.mem_map.2 ⟨p, hp, ?_⟩, by simp⟩
    simp [hph]
  · rw [if_neg hc]
    refine List.any_eq_true.2 ⟨(h, m), by simp, by simp⟩

/-- When every file of the batch is already recorded, the partition loop
skips them all, in order. -/
theorem partitionFiles_all_skip (hash : List Nat → String) (pf : PFiles)
    (files : List UploadedFile)
    (hall : ∀ f ∈ files, pf.member (hash f.buffer) = true) :
    partitionFiles hash pf files = ([], files.map (fun f => f.name)) := by
  induction files with
  | nil => rfl
  | cons f rest ih =>
    have hf := hall f (List.mem_cons_self f rest)
    have hrest := ih (fun g hg => hall g (List.mem_cons_of_mem f hg))
    simp [partitionFiles, hrest, hf]

/-- A call in which every file is already processed returns the skip
result and leaves the state untouched. -/
theorem process_documents_all_skip (hash : List Nat → String)
    (chunksOf : String → List Nat → List String) (st : KMState)
    (files : List UploadedFile)
    (hall : ∀ f ∈ files, st.processed_files.member (hash f.buffer) = true) :
    process_documents hash chunksOf st files =
      (st, { success := true, new_files := some 0,
             skipped_files := some files.length,
             skipped_list := some (files.map (fun f => f.name)),
             total_chunks := none, error := none }) := by
  unfold process_documents
  rw [partitionFiles_all_skip hash st.processed_files files hall]
  simp

/-- Ingesting a single new loadable file: the documents list and the
index are extended by the tagged chunks, the hash is recorded, and the
call reports one new file. -/
theorem process_documents_one_new (hash : List Nat → String)
    (chunksOf : String → List Nat → List String) (st : KMState)
    (d : List (String × FileMeta)) (hpf : st.processed_files = .dict d)
    (f : UploadedFile)
    (hm : st.processed_files.member (hash f.buffer) = false)
    (hload : chunksOf f.name f.buffer ≠ []) :
    process_documents hash chunksOf st [f] =
      ({ st with
          documents := st.documents ++
            tagChunks 0 f (hash f.buffer) (chunksOf f.name f.buffer),
          vectorstore := some ((st.vectorstore.getD []) ++
            tagChunks 0 f (hash f.buffer) (chunksOf f.name f.buffer)),
          processed_files := .dict (dictSet d (hash f.buffer)
            { filename := f.name, file_size := f.buffer.length,
              chunk_count := (chunksOf f.name f.buffer).length,
              file_type := (fileExtension f.name).toLower }) },
       { success := true, new_files := some 1, skipped_files := some 0,
         skipped_list := some [],
         total_chunks := some (chunksOf f.name f.buffer).length,
         error := none }) := by
  rw [hpf] at hm
  cases hc : chunksOf f.name f.buffer with
  | nil => exact absurd hc hload
  | cons a l =>
    cases hvs : st.vectorstore with
    | none =>
      simp [process_documents, partitionFiles, hm, processLoop, hc, hpf,
            PFiles.setItem, tagChunks, hvs]
    | some idx =>
      simp [process_documents, partitionFiles, hm, processLoop, hc, hpf,
            PFiles.setItem, tagChunks, hvs]

/-- C1: ingesting the same file bytes twice is idempotent: whatever the
first call to process_documents did with file f, a second call with the
byte-identical file returns success with new_files = 0 and the file in
the skip list (not an error), and the knowledge store's state — hence its
source count and chunk count — is identical before and after the second
call. Hypotheses: processed_files is a dict (the normal, non-cleared
state) and the file is loadable. -/
theorem c1_idempotent_ingestion (hash : List Nat → String)
    (chunksOf : String → List Nat → List String) (st0 : KMState)
    (d : List (String × FileMeta)) (hpf : st0.processed_files = .dict d)
    (f : UploadedFile) (hload : chunksOf f.name f.buffer ≠ []) :
    (process_documents hash chunksOf
        (process_documents hash chunksOf st0 [f]).1 [f]).2 =
      { success := true, new_files := some 0, skipped_files := some 1,
        skipped_list := some [f.name], total_chunks := none, error := none } ∧
    (process_documents hash chunksOf
        (process_documents hash chunksOf st0 [f]).1 [f]).1 =
      (process_documents hash chunksOf st0 [f]).1 ∧
    get_stats (process_documents hash chunksOf
        (process_documents hash chunksOf st0 [f]).1 [f]).1 =
      get_stats (process_documents hash chunksOf st0 [f]).1 ∧
    ((process_documents hash chunksOf
        (process_documents hash chunksOf st0 [f]).1 [f]).1).processed_files.size =
      ((process_documents hash chunksOf st0 [f]).1).processed_files.size := by
  have hmem : ((process_documents hash chunksOf st0 [f]).1).processed_files.member
      (hash f.buffer) = true := by
    cases hm : st0.processed_files.member (hash f.buffer) with
    | true =>
      rw [process_documents_all_skip hash chunksOf st0 [f]
        (by intro g hg; rw [List.mem_singleton.1 hg]; exact hm)]
      exact hm
    | false =>
      rw [process_documents_one_new hash chunksOf st0 d hpf f hm hload]
      exact dictSet_member d (hash f.buffer) _
  have hskip := process_documents_all_skip hash chunksOf
    (process_documents hash chunksOf st0 [f]).1 [f]
    (by intro g hg; rw [List.mem_singleton.1 hg]; exact hmem)
  rw [hskip]
  exact ⟨rfl, rfl, rfl, rfl⟩

/-- C1 witness: a concrete run of the double-ingestion scenario. -/
theorem c1_idempotent_ingestion_witness :
    emptyKM.processed_files = .dict [] ∧
    sampleChunks fileA.name fileA.buffer ≠ [] ∧
    (process_documents sampleHash sampleChunks
        (process_documents sampleHash sampleChunks emptyKM [fileA]).1 [fileA]).2 =
      { success := true, new_files := some 0, skipped_files := some 1,
        skipped_list := some [fileA.name], total_chunks := none, error := none } :=
  ⟨rfl, by decide,
   (c1_idempotent_ingestion sampleHash sampleChunks emptyKM [] rfl fileA
     (by decide)).1⟩

/-- C2 counterexample: ingesting a.txt and b.txt with byte-identical
content in one call reports new_files = 2 and skipped_files = 0 — not
new_count = 1 and skipped_count = 1 as claimed — and both files' chunks
(2, not 1) are added. The dedup check of the partition loop consults the
processed_files table as it stood before the call, and no hash is
recorded until the processing loop, which never re-checks. -/
theorem c2_counterexample :
    (process_documents sampleHash sampleChunks emptyKM [fileA, fileB]).2.new_files =
      some 2 ∧
    (process_documents sampleHash sampleChunks emptyKM [fileA, fileB]).2.skipped_files =
      some 0 ∧
    ¬ ((process_documents sampleHash sampleChunks emptyKM [fileA, fileB]).2.new_files =
        some 1 ∧
       (process_documents sampleHash sampleChunks emptyKM [fileA, fileB]).2.skipped_files =
        some 1) ∧
    (process_documents sampleHash sampleChunks emptyKM [fileA, fileB]).1.documents.length = 2 := by
  decide

/-- C2 amended: within a single batch, dedup by content does not apply:
two byte-identical loadable files neither of which was processed in an
earlier call are both treated as new — the call reports new_files = 2 and
skipped_files = 0, and the chunks of both files are added to the store.
Dedup by content holds only across calls. -/
theorem c2_amended_no_batch_dedup (hash : List Nat → String)
    (chunksOf : String → List Nat → List String) (st0 : KMState)
    (d : List (String × FileMeta)) (hpf : st0.processed_files = .dict d)
    (f g : UploadedFile) (hbytes : f.buffer = g.buffer)
    (hnew : st0.processed_files.member (hash f.buffer) = false)
    (hloadf : chunksOf f.name f.buffer ≠ [])
    (hloadg : chunksOf g.name g.buffer ≠ []) :
    (process_documents hash chunksOf st0 [f, g]).2.new_files = some 2 ∧
    (process_documents hash chunksOf st0 [f, g]).2.skipped_files = some 0 ∧
    (process_documents hash chunksOf st0 [f, g]).2.total_chunks =
      some ((chunksOf f.name f.buffer).length + (chunksOf g.name g.buffer).length) ∧
    ((process_documents hash chunksOf st0 [f, g]).1).documents.length =
      st0.documents.length + (chunksOf f.name f.buffer).length +
        (chunksOf g.name g.buffer).length := by
  rw [hpf] at hnew
  have hg : hash g.buffer = hash f.buffer := by rw [hbytes]
  cases hcf : chunksOf f.name f.buffer with
  | nil => exact absurd hcf hloadf
  | cons a l =>
    cases hcg : chunksOf g.name g.buffer with
    | nil => exact absurd hcg hloadg
    | cons b m =>
      cases hvs : st0.vectorstore with
      | none =>
        refine ⟨?_, ?_, ?_, ?_⟩ <;>
          simp [process_documents, partitionFiles, hg, hnew, hpf, processLoop,
                hcf, hcg, PFiles.setItem, tagChunks, hvs] <;> omega
      | some idx =>
        refine ⟨?_, ?_, ?_, ?_⟩ <;>
          simp [process_documents, partitionFiles, hg, hnew, hpf, processLoop,
                hcf, hcg, PFiles.setItem, tagChunks, hvs] <;> omega

/-- C2 amended witness: the concrete a.txt/b.txt scenario. -/
theorem c2_amended_no_batch_dedup_witness :
    emptyKM.processed_files = .dict [] ∧
    fileA.buffer = fileB.buffer ∧
    emptyKM.processed_files.member (sampleHash fileA.buffer) = false ∧
    (process_documents sampleHash sampleChunks emptyKM [fileA, fileB]).2.new_files =
      some 2 :=
  ⟨rfl, rfl, by decide,
   (c2_amended_no_batch_dedup sampleHash sampleChunks emptyKM [] rfl fileA fileB
      rfl (by decide) (by decide) (by decide)).1⟩

/-- The dict entries of a processed-files table ([] for the set variant),
as read back from the persisted metadata file. -/
def PFiles.entries : PFiles → List (String × FileMeta)
  | .dict d => d
  | .pset _ => []

/-- State after ingesting a.txt into a fresh store. -/
def kmAfterIngest : KMState :=
  (process_documents sampleHash sampleChunks emptyKM [fileA]).1

/-- Simulated process restart: a new KnowledgeManager constructed against
the same persisted metadata table and the same persisted vector index. -/
def kmRestarted : KMState :=
  kmInit true (some kmAfterIngest.processed_files.entries) kmAfterIngest.vectorstore

/-- C3 counterexample: after ingesting a file, get_stats reports
doc_count = 1 and chunk_count = 1; after the simulated restart against
the same persisted index, the preload path runs
_reconstruct_documents_from_metadata, which resets the in-memory document
list to [] instead of reading the chunks back, so get_stats reports
doc_count = 0 and chunk_count = 0 — the counts are not preserved. -/
theorem c3_counterexample :
    (get_stats kmAfterIngest).doc_count = 1 ∧
    (get_stats kmAfterIngest).chunk_count = 1 ∧
    (get_stats kmRestarted).doc_count = 0 ∧
    (get_stats kmRestarted).chunk_count = 0 := by
  decide

/-- C3 amended: on restart against a non-empty persisted index, preload
does open the index (vectorstore is populated and is_preloaded is set),
but the in-memory document list is reset to empty rather than
reconstructed, so get_stats after the restart reports doc_count = 0 and
chunk_count = 0 regardless of the pre-restart stats. -/
theorem c3_amended_preload_resets_documents
    (dm : Option (List (String × FileMeta))) (idx : List Chunk)
    (hne : idx ≠ []) :
    (kmInit true dm (some idx)).documents = [] ∧
    (kmInit true dm (some idx)).is_preloaded = true ∧
    (kmInit true dm (some idx)).vectorstore = some idx ∧
    get_stats (kmInit true dm (some idx)) =
      { doc_count := 0, chunk_count := 0, total_chars := 0,
        avg_chunk_size := 0, topic_count := 0 } := by
  cases hidx : idx with
  | nil => exact absurd hidx hne
  | cons c rest => refine ⟨rfl, rfl, rfl, rfl⟩

/-- C3 amended witness: restart against a concrete one-chunk index. -/
theorem c3_amended_preload_resets_documents_witness :
    kmAfterIngest.documents ≠ [] ∧
    (kmInit true (some kmAfterIngest.processed_files.entries)
        kmAfterIngest.documents).documents = [] :=
  ⟨by decide,
   (c3_amended_preload_resets_documents
      (some kmAfterIngest.processed_files.entries) kmAfterIngest.documents
      (by decide)).1⟩

/-- A chunk of source h1, for witnesses. -/
def chunkH1 : Chunk :=
  { page_content := "alpha content",
    metadata := { source_file := some "a.txt", file_hash := some "h1" } }

/-- A chunk of source h2, for witnesses. -/
def chunkH2 : Chunk :=
  { page_content := "beta content",
    metadata := { source_file := some "b.txt", file_hash := some "h2" } }

/-- C4: filter correctness. For any store (in particular one holding
chunks of two sources), any query, any k and any backend honouring the
Chroma contract, similarity_search with selected_documents = \x7bh1\x7d never
returns a chunk whose file_hash differs from h1. The hypothesis h1 ≠ "all"
holds for every real source id, which is an md5 hexdigest. -/
theorem c4_filter_correctness (backend : Backend) (hb : Backend.sound backend)
    (index docs : List Chunk) (q : String) (k : Nat) (h1 : String)
    (hall : h1 ≠ "all") :
    ∀ fr ∈ VectorStoreRetriever.similarity_search backend
        { vector_store := some index, documents := docs } q k (some [h1]),
      fr.metadata.file_hash = some h1 := by
  intro fr hfr
  have hcont : (List.contains [h1] "all") = false := by
    simp only [List.contains_cons, List.contains_nil, Bool.or_false,
      beq_eq_false_iff_ne]
    exact Ne.symm hall
  simp only [VectorStoreRetriever.similarity_search, List.isEmpty_cons, hcont,
    Bool.false_eq_true, if_false, chromaSearch] at hfr
  cases hres : backend q (index.filter (matchesFilter (some [h1]))) with
  | error e => rw [hres] at hfr; simp [Except.map] at hfr
  | ok res =>
    rw [hres] at hfr
    simp only [Except.map, List.mem_map] at hfr
    rcases hfr with ⟨p, hp, rfl⟩
    have hpres : p ∈ res := List.mem_of_mem_take hp
    have hmem := hb q _ res hres p hpres
    rcases List.mem_filter.1 hmem with ⟨_, hmatch⟩
    simp only [matchesFilter] at hmatch
    cases hfh : p.1.metadata.file_hash with
    | none => rw [hfh] at hmatch; exact absurd hmatch (by simp)
    | some h =>
      rw [hfh] at hmatch
      simp only [List.contains_cons, List.contains_nil, Bool.or_false,
        beq_iff_eq] at hmatch
      simpa [hfh] using congrArg some hmatch

/-- C4 witness: a store with chunks from sources h1 and h2, queried with
the filter \x7bh1\x7d; the returned chunk carries file_hash h1. -/
theorem c4_filter_correctness_witness :
    Backend.sound idBackend ∧ ("h1" : String) ≠ "all" ∧
    ({ content := chunkH1.page_content, metadata := chunkH1.metadata,
       relevance_score := 0 } : FormattedResult).metadata.file_hash = some "h1" :=
  ⟨idBackend_sound, by decide,
   c4_filter_correctness idBackend idBackend_sound [chunkH1, chunkH2] [] "query" 5
     "h1" (by decide)
     { content := chunkH1.page_content, metadata := chunkH1.metadata,
       relevance_score := 0 }
     (by decide)⟩

/-- C5: empty-store safety. On a freshly constructed KnowledgeManager on
which no ingestion ever occurred (no persisted index, any metadata file,
embeddings initialised or not), similarity_search returns [],
get_random_context returns none and get_all_chunks returns [] — both on
the retriever built from that state and on the KnowledgeManager's own
search methods. All embedded methods are total functions, mirroring the
try/except guards of the source: none of the calls raises. -/
theorem c5_empty_store_safety (embedOk : Bool)
    (dm : Option (List (String × FileMeta))) (backend : Backend) (q : String)
    (k : Nat) (sel : Option (List String)) (ml ridx : Nat) :
    VectorStoreRetriever.similarity_search backend
      { vector_store := (kmInit embedOk dm none).vectorstore,
        documents := (kmInit embedOk dm none).documents } q k sel = [] ∧
    VectorStoreRetriever.get_random_context ridx
      { vector_store := (kmInit embedOk dm none).vectorstore,
        documents := (kmInit embedOk dm none).documents } ml sel = none ∧
    VectorStoreRetriever.get_all_chunks
      { vector_store := (kmInit embedOk dm none).vectorstore,
        documents := (kmInit embedOk dm none).documents } sel = [] ∧
    search_knowledge_base backend (kmInit embedOk dm none) q k = [] ∧
    get_random_context ridx (kmInit embedOk dm none) ml = none := by
  have hvs : (kmInit embedOk dm none).vectorstore = none := by
    cases embedOk <;> rfl
  have hdocs : (kmInit embedOk dm none).documents = [] := by
    cases embedOk <;> rfl
  refine ⟨?_, ?_, ?_, ?_, ?_⟩
  · simp [VectorStoreRetriever.similarity_search, hvs]
  · rcases sel with _ | s <;>
      simp [VectorStoreRetriever.get_random_context, hdocs]
  · simp [VectorStoreRetriever.get_all_chunks, hvs]
  · simp [search_knowledge_base, hvs]
  · simp [get_random_context, hdocs]

/-- A store whose only processed source is h1: one chunk, both in memory
and in the persisted index. -/
def kmOnlyH1 : KMState :=
  { documents := [chunkH1], vectorstore := some [chunkH1],
    processed_files := .dict [("h1",
      { filename := "a.txt", file_size := 13, chunk_count := 1,
        file_type := "txt" })],
    embeddings := true, is_preloaded := false }

/-- C6 counterexample: on a store containing the processed source h1 (and
nothing else), remove_processed_file "h1" succeeds, but rebuild_vectorstore
fails closed because the document list became empty, leaving the old
index in place — and a subsequent similarity_search still returns a chunk
with file_hash h1. The claimed cascade does not hold for every store
containing h1. -/
theorem c6_counterexample :
    (remove_processed_file kmOnlyH1 "h1").2 = true ∧
    (rebuild_vectorstore (remove_processed_file kmOnlyH1 "h1").1).2 = false ∧
    (search_knowledge_base idBackend
        (rebuild_vectorstore (remove_processed_file kmOnlyH1 "h1").1).1
        "any query" 5).map (fun fr => fr.metadata.file_hash) = [some "h1"] := by
  decide

/-- C6 amended: the removal cascade holds whenever at least one chunk of
another source remains after the removal (and embeddings are available):
remove_processed_file h1 followed by rebuild_vectorstore leaves zero
chunks with file_hash h1 in the in-memory list, both calls report
success, and a similarity search over the rebuilt index never returns a
chunk with file_hash h1, for any query and any backend honouring the
Chroma contract. If the removed source was the only one, rebuild fails
closed and the stale index keeps serving its chunks. -/
theorem c6_amended_removal_cascade (st : KMState)
    (d : List (String × FileMeta)) (hpf : st.processed_files = .dict d)
    (h1 : String) (hmem : st.processed_files.member h1 = true)
    (hemb : st.embeddings = true)
    (hrem : st.documents.filter
      (fun c => c.metadata.file_hash != some h1) ≠ [])
    (backend : Backend) (hb : Backend.sound backend) (q : String) (k : Nat) :
    (remove_processed_file st h1).2 = true ∧
    (rebuild_vectorstore (remove_processed_file st h1).1).2 = true ∧
    (∀ c ∈ ((rebuild_vectorstore (remove_processed_file st h1).1).1).documents,
      c.metadata.file_hash ≠ some h1) ∧
    (∀ fr ∈ search_knowledge_base backend
        (rebuild_vectorstore (remove_processed_file st h1).1).1 q k,
      fr.metadata.file_hash ≠ some h1) := by
  rw [hpf] at hmem
  have hrm : remove_processed_file st h1 =
      ({ st with
          processed_files := .dict (d.filter (fun p => p.1 != h1)),
          documents := st.documents.filter
            (fun c => c.metadata.file_hash != some h1) }, true) := by
    simp [remove_processed_file, hpf, hmem, PFiles.getItem, PFiles.delItem]
  have hne : (st.documents.filter
      (fun c => c.metadata.file_hash != some h1)).isEmpty = false := by
    cases hc : st.documents.filter (fun c => c.metadata.file_hash != some h1) with
    | nil => exact absurd hc hrem
    | cons a l => rfl
  have hrb : rebuild_vectorstore (remove_processed_file st h1).1 =
      ({ st with
          processed_files := .dict (d.filter (fun p => p.1 != h1)),
          documents := st.documents.filter
            (fun c => c.metadata.file_hash != some h1),
          vectorstore := some (st.documents.filter
            (fun c => c.metadata.file_hash != some h1)) }, true) := by
    rw [hrm]
    simp [rebuild_vectorstore, hne, hemb]
  have hdocs : ∀ c ∈ st.documents.filter
      (fun c => c.metadata.file_hash != some h1),
      c.metadata.file_hash ≠ some h1 := by
    intro c hc
    simpa [bne_iff_ne] using (List.mem_filter.1 hc).2
  refine ⟨by rw [hrm], by rw [hrb], by rw [hrb]; exact hdocs, ?_⟩
  intro fr hfr
  rw [hrb] at hfr
  simp only [search_knowledge_base, chromaSearch] at hfr
  have hfilt : (st.documents.filter
      (fun c => c.metadata.file_hash != some h1)).filter (matchesFilter none) =
      st.documents.filter (fun c => c.metadata.file_hash != some h1) := by
    simp [matchesFilter]
  rw [hfilt] at hfr
  cases hres : backend q (st.documents.filter
      (fun c => c.metadata.file_hash != some h1)) with
  | error e => rw [hres] at hfr; simp [Except.map] at hfr
  | ok res =>
    rw [hres] at hfr
    simp only [Except.map, List.mem_map] at hfr
    rcases hfr with ⟨p, hp, rfl⟩
    exact hdocs p.1 (hb q _ res hres p (List.mem_of_mem_take hp))

/-- C6 amended witness: a two-source store; removing h1 cascades. -/
theorem c6_amended_removal_cascade_witness :
    Backend.sound idBackend ∧
    (remove_processed_file
      { documents := [chunkH1, chunkH2], vectorstore := some [chunkH1, chunkH2],
        processed_files := .dict [("h1",
          { filename := "a.txt", file_size := 13, chunk_count := 1,
            file_type := "txt" }), ("h2",
          { filename := "b.txt", file_size := 12, chunk_count := 1,
            file_type := "txt" })],
        embeddings := true, is_preloaded := false } "h1").2 = true :=
  ⟨idBackend_sound,
   (c6_amended_removal_cascade
      { documents := [chunkH1, chunkH2], vectorstore := some [chunkH1, chunkH2],
        processed_files := .dict [("h1",
          { filename := "a.txt", file_size := 13, chunk_count := 1,
            file_type := "txt" }), ("h2",
          { filename := "b.txt", file_size := 12, chunk_count := 1,
            file_type := "txt" })],
        embeddings := true, is_preloaded := false }
      [("h1", { filename := "a.txt", file_size := 13, chunk_count := 1,
                file_type := "txt" }),
       ("h2", { filename := "b.txt", file_size := 12, chunk_count := 1,
                file_type := "txt" })]
      rfl "h1" (by decide) rfl (by decide) idBackend idBackend_sound
      "query" 5).1⟩

/-- A splitter stand-in that turns the raw text into one chunk. -/
def sampleSplit : String → List String := fun t => [t]

/-- A Chroma.from_documents/embedding step that raises. -/
def failEmbed : List Chunk → Except String Unit :=
  fun _ => .error "embedding backend unavailable"

/-- A Chroma.from_documents/embedding step that succeeds. -/
def okEmbed : List Chunk → Except String Unit := fun _ => .ok ()

/-- C7 counterexample: process_text_content is a public KnowledgeStore
method, and its except branch re-raises (except Exception as e: raise e),
so an internal exception — here a failing embedding/index creation —
escapes to the caller instead of being converted into a structured
result. The claimed propagation policy does not cover this method. -/
theorem c7_counterexample :
    process_text_content sampleSplit failEmbed emptyKM "some raw text"
      "Sample Content" = .error "embedding backend unavailable" := rfl

/-- C7 amended: every embedded public method except process_text_content
converts internal exceptions: process_documents turns any exception of
its processing loop into a success = false result carrying the message,
and the retriever's similarity_search turns any backend exception into
[]; process_text_content alone re-raises the internal exception. -/
theorem c7_amended_propagation_policy :
    (∀ (hash : List Nat → String) (chunksOf : String → List Nat → List String)
        (st : KMState) (files : List UploadedFile) (pf' : PFiles) (e : String),
      processLoop chunksOf (partitionFiles hash st.processed_files files).1 []
          st.processed_files 0 = .error (pf', e) →
      (process_documents hash chunksOf st files).2.success = false ∧
      (process_documents hash chunksOf st files).2.error = some e) ∧
    (∀ (r : Retriever) (q : String) (k : Nat) (sel : Option (List String))
        (e : String) (backend : Backend),
      (∀ q' l, backend q' l = .error e) →
      VectorStoreRetriever.similarity_search backend r q k sel = []) ∧
    (∀ (split : String → List String) (embed : List Chunk → Except String Unit)
        (st : KMState) (text name e : String),
      embed (textChunks split text name) = .error e →
      process_text_content split embed st text name = .error e) := by
  refine ⟨?_, ?_, ?_⟩
  · intro hash chunksOf st files pf' e hloop
    rcases hpar : partitionFiles hash st.processed_files files with ⟨nf, sk⟩
    rw [hpar] at hloop
    cases nf with
    | nil => simp [processLoop] at hloop
    | cons p rest =>
      exact ⟨by simp [process_documents, hpar, hloop],
             by simp [process_documents, hpar, hloop]⟩
  · intro r q k sel e backend hbe
    cases hvs : r.vector_store with
    | none => simp [VectorStoreRetriever.similarity_search, hvs]
    | some index =>
      simp [VectorStoreRetriever.similarity_search, hvs, chromaSearch, hbe,
        Except.map]
  · intro split embed st text name e he
    simp [process_text_content, he]

/-- C7 amended witness: the set-typed metadata table raises during
ingestion after a clear, and process_documents reports the exception as
a structured failure instead of raising. -/
theorem c7_amended_propagation_policy_witness :
    (process_documents sampleHash sampleChunks (clear_knowledge_base emptyKM)
      [fileA]).2.success = false ∧
    (process_documents sampleHash sampleChunks (clear_knowledge_base emptyKM)
      [fileA]).2.error =
      some "TypeError: set object does not support item assignment" :=
  c7_amended_propagation_policy.1 sampleHash sampleChunks
    (clear_knowledge_base emptyKM) [fileA] (.pset [])
    "TypeError: set object does not support item assignment" rfl

/-- C8 counterexample: with an existing metadata file holding OLDTABLE,
save_metadata's trace opens the target for truncation and writes into it
directly — an observer between the truncation and the completed write
sees an empty file, which is neither the old nor the new content, and
the trace touches the target outside of a rename, so it is not
write-new-then-replace. -/
theorem c8_counterexample :
    tempThenRename "./processed_files.json"
      (save_metadata_events "./processed_files.json" "NEWTABLE") = false ∧
    observableContents [("./processed_files.json", "OLDTABLE")]
      "./processed_files.json"
      (save_metadata_events "./processed_files.json" "NEWTABLE") =
      [some "OLDTABLE", some "", some "NEWTABLE"] ∧
    (some "" : Option String) ≠ some "OLDTABLE" ∧
    (some "" : Option String) ≠ some "NEWTABLE" := by
  decide

/-- C8 amended: save_metadata persists the table by truncating the
target file in place and then writing the serialized table into it — no
temporary file and no rename. The final state holds the new content, but
after the truncation step an observer of the metadata file sees an empty
file, so an interrupted save can leave a partially written (empty or
incomplete) file observable. -/
theorem c8_amended_save_not_atomic (mf ser : String) (fs0 : Fs) :
    save_metadata_events mf ser = [.openTrunc mf, .write mf ser] ∧
    Fs.read (replay fs0 ((save_metadata_events mf ser).take 1)) mf = some "" ∧
    Fs.read (replay fs0 (save_metadata_events mf ser)) mf = some ser ∧
    tempThenRename mf (save_metadata_events mf ser) = false := by
  refine ⟨rfl, ?_, ?_, ?_⟩
  · simp [save_metadata_events, replay, applyEvent, Fs.read, Fs.set]
  · simp [save_metadata_events, replay, applyEvent, Fs.read, Fs.set]
  · simp [tempThenRename, save_metadata_events]

/-- After clear_knowledge_base the table is an empty set, so the
partition loop finds every file new. -/
theorem partitionFiles_pset_empty (hash : List Nat → String)
    (files : List UploadedFile) :
    partitionFiles hash (.pset []) files =
      (files.map (fun f => (f, hash f.buffer)), []) := by
  induction files with
  | nil => rfl
  | cons f rest ih => simp [partitionFiles, ih, PFiles.member]

/-- On a set-typed table, the processing loop raises TypeError at the
first loadable file; mutations never commit, so the error carries the
table unchanged. -/
theorem processLoop_pset_error (chunksOf : String → List Nat → List String)
    (s : List String) (l : List (UploadedFile × String))
    (allTexts : List Chunk) (cnt : Nat)
    (hex : ∃ p ∈ l, chunksOf (Prod.fst p).name (Prod.fst p).buffer ≠ []) :
    processLoop chunksOf l allTexts (.pset s) cnt =
      .error (.pset s, "TypeError: set object does not support item assignment") := by
  induction l generalizing allTexts cnt with
  | nil => rcases hex with ⟨p, hp, _⟩; cases hp
  | cons p rest ih =>
    rcases p with ⟨f, h⟩
    cases hc : chunksOf f.name f.buffer with
    | nil =>
      have hex' : ∃ p ∈ rest, chunksOf (Prod.fst p).name (Prod.fst p).buffer ≠ [] := by
        rcases hex with ⟨w, hw, hwne⟩
        rcases List.mem_cons.1 hw with hwp | hwr
        · rw [hwp] at hwne; exact absurd hc hwne
        · exact ⟨w, hwr, hwne⟩
      simp [processLoop, hc, ih _ _ hex']
    | cons a t => simp [processLoop, hc, PFiles.setItem]

/-- C9: after clear_knowledge_base (which assigns a set to
processed_files), every process_documents call containing at least one
loadable file — all files are new against the empty set — returns a
structured failure (success = false carrying the TypeError raised by the
metadata assignment and caught by the outer handler), and the cleared
store's documents and vector store stay empty: no new source can be
ingested after a clear within the same session. -/
theorem c9_clear_breaks_ingestion (hash : List Nat → String)
    (chunksOf : String → List Nat → List String) (st : KMState)
    (files : List UploadedFile)
    (hload : ∃ f ∈ files, chunksOf f.name f.buffer ≠ []) :
    (process_documents hash chunksOf (clear_knowledge_base st) files).2.success =
      false ∧
    (process_documents hash chunksOf (clear_knowledge_base st) files).2.error =
      some "TypeError: set object does not support item assignment" ∧
    (process_documents hash chunksOf (clear_knowledge_base st) files).1.documents =
      [] ∧
    (process_documents hash chunksOf (clear_knowledge_base st) files).1.vectorstore =
      none := by
  cases files with
  | nil => rcases hload with ⟨f, hf, _⟩; cases hf
  | cons f0 rest =>
    have hpar := partitionFiles_pset_empty hash (f0 :: rest)
    have hexists : ∃ p ∈ (f0 :: rest).map (fun f => (f, hash f.buffer)),
        chunksOf (Prod.fst p).name (Prod.fst p).buffer ≠ [] := by
      rcases hload with ⟨f, hf, hne⟩
      exact ⟨(f, hash f.buffer), List.mem_map.2 ⟨f, hf, rfl⟩, hne⟩
    have hloop := processLoop_pset_error chunksOf []
      ((f0 :: rest).map (fun f => (f, hash f.buffer))) [] 0 hexists
    simp only [List.map_cons] at hloop
    refine ⟨?_, ?_, ?_, ?_⟩ <;>
      simp [process_documents, clear_knowledge_base, hpar, hloop]

/-- C9 witness: a concrete upload after a clear fails with the
TypeError-backed structured failure. -/
theorem c9_clear_breaks_ingestion_witness :
    (∃ f ∈ [fileA], sampleChunks f.name f.buffer ≠ []) ∧
    (process_documents sampleHash sampleChunks (clear_knowledge_base emptyKM)
      [fileA]).2.success = false :=
  ⟨⟨fileA, by decide, by decide⟩,
   (c9_clear_breaks_ingestion sampleHash sampleChunks emptyKM [fileA]
     ⟨fileA, by decide, by decide⟩).1⟩

/-- C10: process_text_content replaces rather than extends the knowledge
base. When the embedding/index-creation step succeeds, the call returns
True, the in-memory document list becomes exactly the chunks split from
the given text (everything previously ingested is dropped from it), and
the vector store handle is a fresh index holding only those chunks. -/
theorem c10_text_replaces_store (split : String → List String)
    (embed : List Chunk → Except String Unit) (st : KMState)
    (text name : String)
    (hok : embed (textChunks split text name) = .ok ()) :
    process_text_content split embed st text name =
      .ok ({ st with documents := textChunks split text name,
                     vectorstore := some (textChunks split text name),
                     embeddings := true }, true) := by
  simp [process_text_content, hok]

/-- C10 witness: replacing a non-empty store with chunks of a raw text. -/
theorem c10_text_replaces_store_witness :
    okEmbed (textChunks sampleSplit "fresh text" "Sample Content") = .ok () ∧
    process_text_content sampleSplit okEmbed kmOnlyH1 "fresh text"
      "Sample Content" =
      .ok ({ kmOnlyH1 with
              documents := textChunks sampleSplit "fresh text" "Sample Content",
              vectorstore :=
                some (textChunks sampleSplit "fresh text" "Sample Content"),
              embeddings := true }, true) :=
  ⟨rfl, c10_text_replaces_store sampleSplit okEmbed kmOnlyH1 "fresh text"
    "Sample Content" rfl⟩

end KQB
